import Mathlib

/-!
Shallow embedding of the dual-store BM25 retrieval pipeline of
`community_version/query.py`: entity normalization, two-path query
construction, per-store soft-fail search, relative-score ranking, fair
interleaving, context assembly, the generator guard, and the orchestrator
`ask`.  Relevance scores are modelled as rationals; the network calls are
abstracted as explicit `Except` transport outcomes passed in as arguments,
and the language-model call as a function argument.
-/

namespace DocRag

/-- One retrieved document occurrence (an element of `hits.hits` in a
search response).  `filepath`, `content`, `category` model `_source`
fields that may be absent (`Option`); `store_label` and `index_used` are
the annotations `rank_hits` adds to kept hits. -/
structure Hit where
  score : Rat
  filepath : Option String := none
  content : Option String := none
  category : Option String := none
  store_label : Option String := none
  index_used : Option String := none
deriving Repr, DecidableEq

/-- The body of a successful backend response as `search_one` consumes it:
the total-match count and the ordered hit list (pre-sorted by the backend,
descending relevance). -/
structure RawHits where
  total : Nat
  hits : List Hit
deriving Repr, DecidableEq

/-- The value `search_one` returns (`query.py:317-347`): a per-store
outcome carrying the store label, the index queried, an optional
diagnostic string, the total-match count, and the hit list. -/
structure SearchOutcome where
  store_label : String
  index_used : String
  error : Option String := none
  total : Nat
  hits : List Hit
deriving Repr, DecidableEq

/-- Model of `search_one` (`query.py:317-347`): a transport-level failure is caught
and converted into a zero-hit outcome carrying a diagnostic string built
from the exception; a successful response is annotated with the store
label and index name.  The network call itself is abstracted as the
`transport` argument. -/
def search_one (label : String) (index_name : String)
    (transport : Except String RawHits) : SearchOutcome :=
  match transport with
  | .error e =>
      { store_label := label, index_used := index_name,
        error := some ("TransportError: " ++ e), total := 0, hits := [] }
  | .ok r =>
      { store_label := label, index_used := index_name,
        error := none, total := r.total, hits := r.hits }

/-- Model of `rank_hits` (`query.py:350-364`): on an empty hit list return `[]`;
otherwise keep every hit whose score is at least `alpha` times the score
of the first hit, then annotate each kept hit with the outcome's store
label and index. -/
def rank_hits (alpha : Rat) (res : SearchOutcome) : List Hit :=
  match res.hits with
  | [] => []
  | top :: _ =>
      (res.hits.filter (fun h => alpha * top.score ≤ h.score)).map
        (fun h => { h with store_label := some res.store_label,
                           index_used := some res.index_used })

/-- The while-loop of `combine_hits` (`query.py:372-381`), with the fuel
argument playing `max_total - len(combined)`: each iteration appends the
next element of the first list if any remain, re-checks the cap, then
appends the next element of the second list if any remain. -/
def combineGo {α : Type _} : List α → List α → Nat → List α
  | _, _, 0 => []
  | [], [], _ + 1 => []
  | [], b :: bs, n + 1 => b :: combineGo [] bs n
  | a :: rest, bs, n + 1 =>
      match n, bs with
      | 0, _ => [a]
      | m + 1, [] => a :: combineGo rest [] (m + 1)
      | m + 1, b :: bs => a :: b :: combineGo rest bs m

/-- Model of `combine_hits` (`query.py:367-381`): stable interleave of the two
per-store lists, first list first, capped at `max_total`. -/
def combine_hits {α : Type _} (hits_a hits_b : List α) (max_total : Nat) :
    List α :=
  combineGo hits_a hits_b max_total

/-- Fair round-robin interleave as the spec words it: take one element
from the first list, then one from the second, alternating; when one list
is exhausted the other is drained. -/
def roundRobin {α : Type _} : List α → List α → List α
  | [], b => b
  | a :: rest, b => a :: roundRobin b rest
termination_by x y => x.length + y.length
decreasing_by simp_wf; omega

/-- Python `str.strip()`: drop whitespace from both ends, modelled over
the character list of the string. -/
def pyStrip (s : String) : String :=
  String.mk
    (((s.data.dropWhile Char.isWhitespace).reverse.dropWhile
        Char.isWhitespace).reverse)

/-- Python `str.lower()`: lower-case every character. -/
def pyLower (s : String) : String :=
  String.mk (s.data.map Char.toLower)

/-- The per-name normalization `name.strip().lower()` of
`normalize_entities` (`query.py:125`). -/
def canonEntity (name : String) : String := pyLower (pyStrip name)

/-- The seen-set loop of `normalize_entities` (`query.py:123-128`):
normalize each name, keep it when it is non-empty and not seen before. -/
def normalizeGo (seen : List String) : List String → List String
  | [] => []
  | name :: rest =>
      let k := canonEntity name
      if k ≠ "" ∧ k ∉ seen then k :: normalizeGo (k :: seen) rest
      else normalizeGo seen rest

/-- Model of `normalize_entities` (`query.py:121-129`): trimmed, lower-cased,
de-duplicated entity strings in first-seen order. -/
def normalize_entities (raw : List String) : List String :=
  normalizeGo [] raw

/-- First-occurrence de-duplication, the order policy the spec states for
entities: keep each string at the position where it first appears. -/
def dedupKeepFirst : List String → List String
  | [] => []
  | x :: xs => x :: dedupKeepFirst (xs.filter (fun y => decide (y ≠ x)))
termination_by l => l.length
decreasing_by
  simp_wf
  exact Nat.lt_succ_of_le (List.length_filter_le _ _)

/-- One node of the structured query `build_query` emits — the subset of
the backend query DSL the builder uses.  `operator_` is `some "and"` for
all-terms-required clauses and `none` where the source dict omits the
operator (backend default OR).  Field weights are the `^w` suffixes on
`multi_match` fields. -/
inductive Clause where
  | match_ (field : String) (query : String) (operator_ : Option String)
  | terms_set (field : String) (terms : List String)
      (min_should_match_script : String)
  | terms (field : String) (terms : List String)
  | multi_match (query : String) (fields : List (String × Rat))
      (operator_ : Option String)
  | bool_ (should : List Clause) (minimum_should_match : Nat) (boost : Rat)
  | dis_max (tie_breaker : Rat) (queries : List Clause)
deriving Repr

/-- Model of `build_query` (`query.py:171-248`): with no entities, a `dis_max`
over a single full-question match on `content`; with entities, a
`dis_max` over a strict (AND-semantics, boost 30) and a relaxed
(OR-semantics, boost 10) bool branch, each holding the three entity
clauses, and no full-question clause. -/
def build_query (question : String) (entities : List String) : Clause :=
  if entities = [] then
    .dis_max 0 [.match_ "content" question none]
  else
    let joined := String.intercalate " " entities
    let strict_bool : Clause :=
      .bool_
        [ .terms_set "explicit_terms" entities "params.num_terms",
          .match_ "explicit_terms_text" joined (some "and"),
          .multi_match joined [("content", 1), ("category", 1/2)]
            (some "and") ]
        1 30
    let or_bool : Clause :=
      .bool_
        [ .terms "explicit_terms" entities,
          .match_ "explicit_terms_text" joined none,
          .multi_match joined [("content", 1), ("category", 1/2)] none ]
        1 10
    .dis_max 0 [strict_bool, or_bool]

mutual

/-- Whether a clause tree contains a bare `match` on the `content` field
— the exact shape of the no-entity full-question fallback clause. -/
def hasContentMatch : Clause → Bool
  | .match_ f _ _ => f == "content"
  | .terms_set _ _ _ => false
  | .terms _ _ => false
  | .multi_match _ _ _ => false
  | .bool_ should _ _ => hasContentMatchL should
  | .dis_max _ qs => hasContentMatchL qs

/-- Disjunction of `hasContentMatch` over a list of clauses. -/
def hasContentMatchL : List Clause → Bool
  | [] => false
  | c :: cs => hasContentMatch c || hasContentMatchL cs

end

/-- The fixed sentinel answer string of `query.py`. -/
def sentinel : String := "No relevant information found."

/-- Model of `generate_answer` (`query.py:271-290`): when the context is blank
after stripping, return the sentinel without calling the model; otherwise
build the prompt, call the model, and strip its reply.  The model call is
the `llm` argument; the returned flag records whether it was invoked. -/
def generate_answer (llm : String → String → String)
    (question context : String) : String × Bool :=
  if pyStrip context = "" then (sentinel, false)
  else
    let sys_msg := "Answer using ONLY the provided context."
    let user_prompt :=
      "Context:\n" ++ context ++ "\n\n" ++ "Question: " ++ question ++
        "\n\n" ++
        "If context lacks the answer, reply exactly with: No relevant information found."
    (pyStrip (llm sys_msg user_prompt), true)

/-- Python's `"\n".join` as `build_context` uses it. -/
def joinNL : List String → String
  | [] => ""
  | [s] => s
  | s :: t :: rest => s ++ "\n" ++ joinNL (t :: rest)

/-- Model of `build_context` (`query.py:416-427`): empty hits give the empty
string; otherwise each hit becomes a section carrying its store label
(default "?"), its document path (default "<unknown>"), and its content
(missing treated as "") stripped and truncated to `max_chars_per_doc`
characters; sections are joined with newlines. -/
def build_context (hits : List Hit) (max_chars_per_doc : Nat) : String :=
  if hits = [] then ""
  else
    joinNL (hits.map (fun h =>
      let fp := h.filepath.getD "<unknown>"
      let store := h.store_label.getD "?"
      let content := pyStrip (h.content.getD "")
      let snippet := content.take max_chars_per_doc
      "---\nStore: " ++ store ++ "\nDoc: " ++ fp ++ "\n" ++ snippet ++ "\n"))

/-- The per-store section of the audit payload (`query.py:489-500`). -/
structure StoreAudit where
  index : String
  total : Nat
  error : Option String
  kept_filepaths : List (Option String)
deriving Repr, DecidableEq

/-- The JSONL audit payload `ask` saves (`query.py:481-504`): timestamp,
question, entities, alpha, size, preference token, each store's index /
total / error / kept filepaths, and the combined filepaths.  No document
content field exists. -/
structure AuditRecord where
  ts : String
  question : String
  entities : List String
  alpha : Rat
  size : Nat
  preference : String
  long : StoreAudit
  hot : StoreAudit
  combined_filepaths : List (Option String)
deriving Repr, DecidableEq

/-- The ambient configuration `ask` reads (env-derived globals and the
wall-clock timestamp), passed explicitly. -/
structure AskEnv where
  alpha : Rat
  size : Nat
  preference : String
  long_index : String
  hot_index : String
  ts : String
deriving Repr, DecidableEq

/-- What `ask` returns, plus instrumentation: the answer string, the hit
list returned to the caller, whether the generator was invoked, and the
audit payload (`some` iff a save path was given). -/
structure AskResult where
  answer : String
  hits : List Hit
  generator_called : Bool
  audit : Option AuditRecord
deriving Repr, DecidableEq

/-- The combined list `ask` computes (`query.py:467-470`): rank each
store's outcome independently, then interleave with cap 10. -/
def ask_combined (alpha : Rat) (long_index hot_index : String)
    (t_long t_hot : Except String RawHits) : List Hit :=
  combine_hits (rank_hits alpha (search_one "LONG" long_index t_long))
    (rank_hits alpha (search_one "HOT" hot_index t_hot)) 10

/-- The audit payload of `query.py:482-503` for one call: note that only
identifiers, counts, error strings and filepaths enter it. -/
def ask_audit (env : AskEnv) (question : String) (entities : List String)
    (t_long t_hot : Except String RawHits) : AuditRecord :=
  let res_long := search_one "LONG" env.long_index t_long
  let res_hot := search_one "HOT" env.hot_index t_hot
  let keep_long := rank_hits env.alpha res_long
  let keep_hot := rank_hits env.alpha res_hot
  let combined := combine_hits keep_long keep_hot 10
  { ts := env.ts, question := question, entities := entities,
    alpha := env.alpha, size := env.size, preference := env.preference,
    long := { index := res_long.index_used, total := res_long.total,
              error := res_long.error,
              kept_filepaths := keep_long.map (fun h => h.filepath) },
    hot := { index := res_hot.index_used, total := res_hot.total,
             error := res_hot.error,
             kept_filepaths := keep_hot.map (fun h => h.filepath) },
    combined_filepaths := combined.map (fun h => h.filepath) }

/-- The orchestrator `ask` (`query.py:439-512`) after the NER network
call: normalize the raw entities, build the query, search both stores
(transport outcomes passed in), rank per store, combine with cap 10,
optionally record the audit payload, assemble the context with a
1500-character budget per document, and either short-circuit to the
sentinel on a blank context or invoke the generator. -/
def ask_core (llm : String → String → String) (env : AskEnv)
    (question : String) (raw_entities : List String)
    (t_long t_hot : Except String RawHits) (save : Bool) : AskResult :=
  let entities := normalize_entities raw_entities
  let _query := build_query question entities
  let combined := ask_combined env.alpha env.long_index env.hot_index
    t_long t_hot
  let audit :=
    if save then some (ask_audit env question entities t_long t_hot)
    else none
  let context_block := build_context combined 1500
  if pyStrip context_block = "" then
    { answer := sentinel, hits := [], generator_called := false,
      audit := audit }
  else
    let g := generate_answer llm question context_block
    { answer := g.1, hits := combined, generator_called := g.2,
      audit := audit }

end DocRag

namespace DocRag

lemma roundRobin_nil {α : Type _} (b : List α) : roundRobin [] b = b := by
  simp [roundRobin]

lemma roundRobin_cons {α : Type _} (a : α) (rest b : List α) :
    roundRobin (a :: rest) b = a :: roundRobin b rest := by
  simp [roundRobin]

lemma roundRobin_nil_right {α : Type _} (a : List α) : roundRobin a [] = a := by
  cases a <;> simp [roundRobin]

lemma combineGo_eq_take {α : Type _} :
    ∀ (n : Nat) (a b : List α), combineGo a b n = (roundRobin a b).take n := by
  intro n
  induction n using Nat.strong_induction_on with
  | _ n ih =>
    intro a b
    match n, a, b with
    | 0, a, b => simp [combineGo]
    | n + 1, [], [] => simp [combineGo, roundRobin_nil]
    | n + 1, [], b :: bs =>
        rw [combineGo, roundRobin_nil, List.take_succ_cons,
          ih n (Nat.lt_succ_self _) [] bs, roundRobin_nil]
    | 1, a :: rest, bs =>
        rw [combineGo, roundRobin_cons, List.take_succ_cons, List.take_zero]
    | m + 2, a :: rest, [] =>
        rw [combineGo, roundRobin_cons, roundRobin_nil, List.take_succ_cons,
          ih (m + 1) (Nat.lt_succ_self _) rest [], roundRobin_nil_right]
    | m + 2, a :: rest, b :: bs =>
        rw [combineGo, roundRobin_cons, roundRobin_cons, List.take_succ_cons,
          List.take_succ_cons, ih m (by omega) rest bs]

end DocRag

namespace DocRag

/-- Tag projection recovering the first list's elements from a tagged
interleave. -/
def fromA {σ τ : Type _} : σ ⊕ τ → Option σ
  | .inl a => some a
  | .inr _ => none

/-- Tag projection recovering the second list's elements from a tagged
interleave. -/
def fromB {σ τ : Type _} : σ ⊕ τ → Option τ
  | .inl _ => none
  | .inr b => some b

lemma roundRobin_length {α : Type _} :
    ∀ (n : Nat) (a b : List α), a.length + b.length ≤ n →
      (roundRobin a b).length = a.length + b.length := by
  intro n
  induction n with
  | zero =>
      intro a b h
      have ha : a = [] := by
        cases a <;> simp_all
      have hb : b = [] := by
        cases b <;> simp_all
      subst ha; subst hb; simp [roundRobin_nil]
  | succ n ih =>
      intro a b h
      cases a with
      | nil => simp [roundRobin_nil]
      | cons x rest =>
          rw [roundRobin_cons]
          simp only [List.length_cons]
          rw [ih b rest (by simp at h ⊢; omega)]
          omega

lemma filterMap_fromA_inl {σ τ : Type _} (A : List σ) :
    (A.map (Sum.inl : σ → σ ⊕ τ)).filterMap fromA = A := by
  induction A with
  | nil => simp
  | cons x rest ih => simp [List.filterMap_cons, fromA, ih]

lemma filterMap_fromB_inr {σ τ : Type _} (B : List τ) :
    (B.map (Sum.inr : τ → σ ⊕ τ)).filterMap fromB = B := by
  induction B with
  | nil => simp
  | cons y rest ih => simp [List.filterMap_cons, fromB, ih]

lemma filterMap_fromA_inr {σ τ : Type _} (B : List τ) :
    (B.map (Sum.inr : τ → σ ⊕ τ)).filterMap fromA = [] := by
  induction B with
  | nil => simp
  | cons y rest ih => simp [List.filterMap_cons, fromA, ih]

lemma filterMap_fromB_inl {σ τ : Type _} (A : List σ) :
    (A.map (Sum.inl : σ → σ ⊕ τ)).filterMap fromB = [] := by
  induction A with
  | nil => simp
  | cons x rest ih => simp [List.filterMap_cons, fromB, ih]

lemma roundRobin_tagged_filterMap {σ τ : Type _} :
    ∀ (n : Nat) (A : List σ) (B : List τ), A.length + B.length ≤ n →
      ((roundRobin (A.map Sum.inl) (B.map Sum.inr)).filterMap fromA = A ∧
       (roundRobin (B.map Sum.inr) (A.map Sum.inl)).filterMap fromA = A ∧
       (roundRobin (A.map Sum.inl) (B.map Sum.inr)).filterMap fromB = B ∧
       (roundRobin (B.map Sum.inr) (A.map Sum.inl)).filterMap fromB = B) := by
  intro n
  induction n with
  | zero =>
      intro A B h
      have hA : A = [] := by cases A <;> simp_all
      have hB : B = [] := by cases B <;> simp_all
      subst hA; subst hB
      simp [roundRobin_nil, fromA, fromB]
  | succ n ih =>
      intro A B h
      refine ⟨?_, ?_, ?_, ?_⟩
      · cases A with
        | nil => rw [List.map_nil, roundRobin_nil, filterMap_fromA_inr]
        | cons x rest =>
            simp only [List.map_cons, roundRobin_cons, List.filterMap_cons]
            simp only [fromA]
            rw [(ih rest B (by simp at h ⊢; omega)).2.1]
      · cases B with
        | nil => rw [List.map_nil, roundRobin_nil, filterMap_fromA_inl]
        | cons y rest =>
            simp only [List.map_cons, roundRobin_cons, List.filterMap_cons]
            simp only [fromA]
            rw [(ih A rest (by simp at h ⊢; omega)).1]
      · cases A with
        | nil => rw [List.map_nil, roundRobin_nil, filterMap_fromB_inr]
        | cons x rest =>
            simp only [List.map_cons, roundRobin_cons, List.filterMap_cons]
            simp only [fromB]
            rw [(ih rest B (by simp at h ⊢; omega)).2.2.2]
      · cases B with
        | nil => rw [List.map_nil, roundRobin_nil, filterMap_fromB_inl]
        | cons y rest =>
            simp only [List.map_cons, roundRobin_cons, List.filterMap_cons]
            simp only [fromB]
            rw [(ih A rest (by simp at h ⊢; omega)).2.2.1]

end DocRag

namespace DocRag

lemma take_filterMap_eq_take {γ δ : Type _} (f : γ → Option δ) (L : List γ)
    (R : List δ) (n : Nat) (h : L.filterMap f = R) :
    ∃ k, (L.take n).filterMap f = R.take k := by
  refine ⟨((L.take n).filterMap f).length, ?_⟩
  have hsplit : R = (L.take n).filterMap f ++ (L.drop n).filterMap f := by
    rw [← List.filterMap_append, List.take_append_drop, h]
  rw [hsplit, List.take_left]

/-- C2: `combine_hits` equals the fair round-robin interleave (one from
the first list, then one from the second, draining the survivor)
truncated to `maxTotal`; its length is `min maxTotal (|A| + |B|)`;
`combine_hits [] [] n = []`; and on tagged inputs the sub-sequence of the
output coming from each input list is an initial segment of that list, so
each list's relative order is preserved. -/
theorem combine_hits_round_robin {α σ τ : Type} (A B : List α) (n : Nat)
    (A' : List σ) (B' : List τ) :
    combine_hits A B n = (roundRobin A B).take n ∧
    (combine_hits A B n).length = min n (A.length + B.length) ∧
    combine_hits ([] : List α) [] n = [] ∧
    (∃ k, (combine_hits (A'.map Sum.inl) (B'.map Sum.inr) n).filterMap fromA
        = A'.take k) ∧
    (∃ k, (combine_hits (A'.map Sum.inl) (B'.map Sum.inr) n).filterMap fromB
        = B'.take k) := by
  refine ⟨combineGo_eq_take n A B, ?_, ?_, ?_, ?_⟩
  · rw [combine_hits, combineGo_eq_take, List.length_take,
      roundRobin_length (A.length + B.length) A B (Nat.le_refl _)]
  · cases n <;> rfl
  · rw [combine_hits, combineGo_eq_take]
    exact take_filterMap_eq_take fromA _ A' n
      (roundRobin_tagged_filterMap (A'.length + B'.length) A' B'
        (Nat.le_refl _)).1
  · rw [combine_hits, combineGo_eq_take]
    exact take_filterMap_eq_take fromB _ B' n
      (roundRobin_tagged_filterMap (A'.length + B'.length) A' B'
        (Nat.le_refl _)).2.2.1

end DocRag

namespace DocRag

/-- The annotation `rank_hits` applies to each kept hit
(`query.py:361-363`). -/
def annotate (res : SearchOutcome) (h : Hit) : Hit :=
  { h with store_label := some res.store_label,
           index_used := some res.index_used }

/-- A concrete hit used to instantiate the ranking theorem. -/
def hitA : Hit := { score := 4, filepath := some "a.txt" }

/-- A second concrete hit used to instantiate the ranking theorem. -/
def hitB : Hit := { score := 1, filepath := some "b.txt" }

/-- A concrete successful outcome used to instantiate the ranking
theorem. -/
def sampleOutcome : SearchOutcome :=
  { store_label := "LONG", index_used := "bbc", total := 2,
    hits := [hitA, hitB] }

/-- C1 (amended): for `alpha ∈ (0,1]`, `rank_hits` returns `[]` on a
zero-hit outcome, and on `hits = top :: rest` it returns exactly the
hits scoring at least `alpha * top.score`, in their original order
(a filter), each annotated with the store; every returned hit meets the
threshold; and hit 0 is always kept (as the head of the result) provided
its score is nonnegative — the amendment the negative-score
counterexample forces. -/
theorem rank_hits_keeps_threshold_and_top (alpha : Rat)
    (res : SearchOutcome) (top : Hit) (rest : List Hit)
    (h0 : 0 < alpha) (h1 : alpha ≤ 1) (hcons : res.hits = top :: rest) :
    (∀ o : SearchOutcome, o.hits = [] → rank_hits alpha o = []) ∧
    rank_hits alpha res =
      ((top :: rest).filter (fun h => alpha * top.score ≤ h.score)).map
        (annotate res) ∧
    (∀ h ∈ rank_hits alpha res, alpha * top.score ≤ h.score) ∧
    (0 ≤ top.score →
      ∃ tl, rank_hits alpha res = annotate res top :: tl) := by
  have hmain : rank_hits alpha res =
      ((top :: rest).filter (fun h => alpha * top.score ≤ h.score)).map
        (annotate res) := by
    rw [rank_hits, hcons]
    rfl
  refine ⟨?_, hmain, ?_, ?_⟩
  · intro o ho
    rw [rank_hits, ho]
  · intro h hmem
    rw [hmain] at hmem
    obtain ⟨h', hmem', rfl⟩ := List.mem_map.mp hmem
    have hp := (List.mem_filter.mp hmem').2
    simpa [annotate] using of_decide_eq_true hp
  · intro htop
    have hkeep : alpha * top.score ≤ top.score := by
      calc alpha * top.score ≤ 1 * top.score :=
            mul_le_mul_of_nonneg_right h1 htop
        _ = top.score := one_mul _
    refine ⟨((rest.filter (fun h => alpha * top.score ≤ h.score)).map
      (annotate res)), ?_⟩
    rw [hmain, List.filter_cons_of_pos (by simpa using hkeep), List.map_cons]

/-- C1 counterexample: with `alpha = 1/2 ∈ (0,1]` and a (trivially
descending-sorted) one-hit outcome whose top score is `-2`, `rank_hits`
returns `[]` and so drops hit 0, because `-2 < (1/2)·(-2)`. -/
theorem rank_hits_drops_top_on_negative_score :
    0 < (1/2 : Rat) ∧ (1/2 : Rat) ≤ 1 ∧
    ({ store_label := "LONG", index_used := "bbc", total := 1,
       hits := [{ score := -2 }] } : SearchOutcome).hits ≠ [] ∧
    rank_hits (1/2)
      { store_label := "LONG", index_used := "bbc", total := 1,
        hits := [{ score := -2 }] } = [] := by
  refine ⟨by norm_num, by norm_num, by simp, ?_⟩
  simp [rank_hits]

/-- Witness for the ranking theorem at `alpha = 1/2` on a concrete
two-hit outcome. -/
theorem rank_hits_keeps_threshold_and_top_witness :
    ((0:Rat) < 1/2 ∧ (1/2:Rat) ≤ 1 ∧
      sampleOutcome.hits = hitA :: [hitB]) ∧
    ((∀ o : SearchOutcome, o.hits = [] → rank_hits (1/2) o = []) ∧
     rank_hits (1/2) sampleOutcome =
       ((hitA :: [hitB]).filter
         (fun h => (1/2 : Rat) * hitA.score ≤ h.score)).map
         (annotate sampleOutcome) ∧
     (∀ h ∈ rank_hits (1/2) sampleOutcome,
        (1/2 : Rat) * hitA.score ≤ h.score) ∧
     (0 ≤ hitA.score →
       ∃ tl, rank_hits (1/2) sampleOutcome =
         annotate sampleOutcome hitA :: tl)) :=
  ⟨⟨one_half_pos, one_half_lt_one.le, rfl⟩,
    rank_hits_keeps_threshold_and_top (1/2) sampleOutcome hitA [hitB]
      one_half_pos one_half_lt_one.le rfl⟩

end DocRag

namespace DocRag

/-- C3: with no entities, `build_query` is a disjunction holding exactly
one full-question match on the body field `content` and nothing else;
with entities, it is a disjunction of exactly the strict strategy
(boost 30) and the relaxed strategy (boost 10), each holding the three
entity clauses, and no bare `match` on `content` (the shape of the
full-question fallback clause) occurs anywhere in the tree. -/
theorem build_query_two_paths (question : String) (entities : List String)
    (hne : entities ≠ []) :
    build_query question [] =
      .dis_max 0 [.match_ "content" question none] ∧
    build_query question entities =
      .dis_max 0
        [ .bool_
            [ .terms_set "explicit_terms" entities "params.num_terms",
              .match_ "explicit_terms_text"
                (String.intercalate " " entities) (some "and"),
              .multi_match (String.intercalate " " entities)
                [("content", 1), ("category", 1/2)] (some "and") ]
            1 30,
          .bool_
            [ .terms "explicit_terms" entities,
              .match_ "explicit_terms_text"
                (String.intercalate " " entities) none,
              .multi_match (String.intercalate " " entities)
                [("content", 1), ("category", 1/2)] none ]
            1 10 ] ∧
    hasContentMatch (build_query question entities) = false := by
  have h2 : build_query question entities =
      .dis_max 0
        [ .bool_
            [ .terms_set "explicit_terms" entities "params.num_terms",
              .match_ "explicit_terms_text"
                (String.intercalate " " entities) (some "and"),
              .multi_match (String.intercalate " " entities)
                [("content", 1), ("category", 1/2)] (some "and") ]
            1 30,
          .bool_
            [ .terms "explicit_terms" entities,
              .match_ "explicit_terms_text"
                (String.intercalate " " entities) none,
              .multi_match (String.intercalate " " entities)
                [("content", 1), ("category", 1/2)] none ]
            1 10 ] := by
    rw [build_query, if_neg hne]
  refine ⟨by rw [build_query, if_pos rfl], h2, ?_⟩
  rw [h2]
  rfl

/-- Witness for the query-builder theorem on a concrete entity list. -/
theorem build_query_two_paths_witness :
    (["ernie wise"] ≠ ([] : List String)) ∧
    (build_query "Tell me about Ernie Wise" [] =
      .dis_max 0 [.match_ "content" "Tell me about Ernie Wise" none] ∧
    build_query "Tell me about Ernie Wise" ["ernie wise"] =
      .dis_max 0
        [ .bool_
            [ .terms_set "explicit_terms" ["ernie wise"] "params.num_terms",
              .match_ "explicit_terms_text"
                (String.intercalate " " ["ernie wise"]) (some "and"),
              .multi_match (String.intercalate " " ["ernie wise"])
                [("content", 1), ("category", 1/2)] (some "and") ]
            1 30,
          .bool_
            [ .terms "explicit_terms" ["ernie wise"],
              .match_ "explicit_terms_text"
                (String.intercalate " " ["ernie wise"]) none,
              .multi_match (String.intercalate " " ["ernie wise"])
                [("content", 1), ("category", 1/2)] none ]
            1 10 ] ∧
    hasContentMatch (build_query "Tell me about Ernie Wise" ["ernie wise"])
      = false) :=
  ⟨by decide,
    build_query_two_paths "Tell me about Ernie Wise" ["ernie wise"]
      (by decide)⟩

/-- C6: `build_query` is a pure function of its two arguments — equal
inputs give structurally identical output, with no ambient dependence. -/
theorem build_query_deterministic (q1 q2 : String)
    (e1 e2 : List String) (hq : q1 = q2) (he : e1 = e2) :
    build_query q1 e1 = build_query q2 e2 := by
  rw [hq, he]

/-- Witness for determinism at concrete inputs. -/
theorem build_query_deterministic_witness :
    ("a question" = "a question") ∧ (["x"] = ["x"]) ∧
    build_query "a question" ["x"] = build_query "a question" ["x"] :=
  ⟨rfl, rfl,
    build_query_deterministic "a question" "a question" ["x"] ["x"]
      rfl rfl⟩

/-- C5: a transport-level failure of either store is converted by
`search_one` into an outcome with zero hits and a diagnostic string
(never a propagated exception), and in each direction — LONG failing
with HOT surviving, or HOT failing with LONG surviving — the surviving
store's ranked hits are exactly what `ask` combines (in their original
order, capped at 10) and hands to context assembly. -/
theorem store_failure_isolated (env : AskEnv) (e : String)
    (t_long t_hot : Except String RawHits) :
    (∀ label idx : String,
      (search_one label idx (.error e)).hits = [] ∧
      (search_one label idx (.error e)).error =
        some ("TransportError: " ++ e)) ∧
    (ask_combined env.alpha env.long_index env.hot_index (.error e) t_hot
      = (rank_hits env.alpha
          (search_one "HOT" env.hot_index t_hot)).take 10 ∧
      build_context
          (ask_combined env.alpha env.long_index env.hot_index (.error e)
            t_hot) 1500 =
        build_context
          ((rank_hits env.alpha
            (search_one "HOT" env.hot_index t_hot)).take 10) 1500) ∧
    (ask_combined env.alpha env.long_index env.hot_index t_long (.error e)
      = (rank_hits env.alpha
          (search_one "LONG" env.long_index t_long)).take 10 ∧
      build_context
          (ask_combined env.alpha env.long_index env.hot_index t_long
            (.error e)) 1500 =
        build_context
          ((rank_hits env.alpha
            (search_one "LONG" env.long_index t_long)).take 10) 1500) := by
  have hlongfail : ask_combined env.alpha env.long_index env.hot_index
      (.error e) t_hot =
      (rank_hits env.alpha (search_one "HOT" env.hot_index t_hot)).take
        10 := by
    rw [ask_combined, combine_hits]
    have hnil : rank_hits env.alpha
        (search_one "LONG" env.long_index (.error e)) = [] := rfl
    rw [hnil, combineGo_eq_take, roundRobin_nil]
  have hhotfail : ask_combined env.alpha env.long_index env.hot_index
      t_long (.error e) =
      (rank_hits env.alpha (search_one "LONG" env.long_index
        t_long)).take 10 := by
    rw [ask_combined, combine_hits]
    have hnil : rank_hits env.alpha
        (search_one "HOT" env.hot_index (.error e)) = [] := rfl
    rw [hnil, combineGo_eq_take, roundRobin_nil_right]
  exact ⟨fun label idx => ⟨rfl, rfl⟩,
    ⟨hlongfail, by rw [hlongfail]⟩, ⟨hhotfail, by rw [hhotfail]⟩⟩

end DocRag

namespace DocRag

lemma ask_core_eq_ite (llm : String → String → String) (env : AskEnv)
    (question : String) (raw_entities : List String)
    (t_long t_hot : Except String RawHits) (save : Bool) :
    ask_core llm env question raw_entities t_long t_hot save =
      if pyStrip (build_context
          (ask_combined env.alpha env.long_index env.hot_index t_long
            t_hot) 1500) = "" then
        { answer := sentinel, hits := [], generator_called := false,
          audit := if save then
            some (ask_audit env question (normalize_entities raw_entities)
              t_long t_hot) else none }
      else
        { answer := (generate_answer llm question (build_context
            (ask_combined env.alpha env.long_index env.hot_index t_long
              t_hot) 1500)).1,
          hits := ask_combined env.alpha env.long_index env.hot_index
            t_long t_hot,
          generator_called := (generate_answer llm question (build_context
            (ask_combined env.alpha env.long_index env.hot_index t_long
              t_hot) 1500)).2,
          audit := if save then
            some (ask_audit env question (normalize_entities raw_entities)
              t_long t_hot) else none } := rfl

/-- C4: the generator is invoked iff the assembled context block is
non-blank, and whenever the combined result list is empty `ask` returns
the fixed sentinel together with an empty hit list and no generator
call. -/
theorem ask_empty_combined_short_circuit (llm : String → String → String)
    (env : AskEnv) (question : String) (raw_entities : List String)
    (t_long t_hot : Except String RawHits) (save : Bool) :
    ((ask_core llm env question raw_entities t_long t_hot
        save).generator_called = true ↔
      pyStrip (build_context
        (ask_combined env.alpha env.long_index env.hot_index t_long t_hot)
        1500) ≠ "") ∧
    (ask_combined env.alpha env.long_index env.hot_index t_long t_hot = []
      → (ask_core llm env question raw_entities t_long t_hot save).answer
          = sentinel ∧
        (ask_core llm env question raw_entities t_long t_hot save).hits
          = [] ∧
        (ask_core llm env question raw_entities t_long t_hot
          save).generator_called = false) := by
  rw [ask_core_eq_ite]
  by_cases hb : pyStrip (build_context
      (ask_combined env.alpha env.long_index env.hot_index t_long t_hot)
      1500) = ""
  · rw [if_pos hb]
    refine ⟨by simp [hb], fun _ => ⟨rfl, rfl, rfl⟩⟩
  · rw [if_neg hb]
    constructor
    · rw [generate_answer, if_neg hb]
      simp [hb]
    · intro hc
      exfalso
      apply hb
      rw [hc]
      rfl

/-- Witness for the short-circuit theorem: both stores return zero hits;
the combined list is empty and `ask` answers with the sentinel. -/
theorem ask_empty_combined_short_circuit_witness :
    (ask_combined (1/2) "bbc" "bbc" (.ok ⟨0, []⟩) (.ok ⟨0, []⟩) = []) ∧
    (((ask_core (fun _ _ => "reply") ⟨1/2, 8, "governance-audit-v1",
        "bbc", "bbc", "ts"⟩ "q" [] (.ok ⟨0, []⟩) (.ok ⟨0, []⟩)
        true).generator_called = true ↔
      pyStrip (build_context
        (ask_combined (1/2) "bbc" "bbc" (.ok ⟨0, []⟩) (.ok ⟨0, []⟩))
        1500) ≠ "") ∧
    (ask_combined (1/2) "bbc" "bbc" (.ok ⟨0, []⟩) (.ok ⟨0, []⟩) = []
      → (ask_core (fun _ _ => "reply") ⟨1/2, 8, "governance-audit-v1",
          "bbc", "bbc", "ts"⟩ "q" [] (.ok ⟨0, []⟩) (.ok ⟨0, []⟩)
          true).answer = sentinel ∧
        (ask_core (fun _ _ => "reply") ⟨1/2, 8, "governance-audit-v1",
          "bbc", "bbc", "ts"⟩ "q" [] (.ok ⟨0, []⟩) (.ok ⟨0, []⟩)
          true).hits = [] ∧
        (ask_core (fun _ _ => "reply") ⟨1/2, 8, "governance-audit-v1",
          "bbc", "bbc", "ts"⟩ "q" [] (.ok ⟨0, []⟩) (.ok ⟨0, []⟩)
          true).generator_called = false)) :=
  ⟨rfl, ask_empty_combined_short_circuit (fun _ _ => "reply")
    ⟨1/2, 8, "governance-audit-v1", "bbc", "bbc", "ts"⟩ "q" []
    (.ok ⟨0, []⟩) (.ok ⟨0, []⟩) true⟩

end DocRag

namespace DocRag

lemma append_ne_empty_left (a b : String) (ha : a ≠ "") : a ++ b ≠ "" := by
  intro hab
  apply ha
  have hlen := congrArg String.length hab
  rw [String.length_append] at hlen
  have h0 : a.length = 0 := by
    have : String.length "" = 0 := rfl
    omega
  cases a with
  | mk data =>
      cases data with
      | nil => rfl
      | cons c cs => simp [String.length] at h0

lemma joinNL_ne_empty (p : String) (ps : List String) (hp : p ≠ "") :
    joinNL (p :: ps) ≠ "" := by
  cases ps with
  | nil => simpa [joinNL] using hp
  | cons q rest =>
      rw [joinNL]
      exact append_ne_empty_left _ _ (append_ne_empty_left _ _ hp)

/-- C7: the assembled context block is empty iff the combined result list
is empty — in particular a hit with missing or empty content still
contributes its non-empty header section. -/
theorem build_context_empty_iff (hits : List Hit) (budget : Nat)
    (hb : 0 < budget) :
    build_context hits budget = "" ↔ hits = [] := by
  cases hits with
  | nil => simp [build_context]
  | cons h t =>
      constructor
      · intro hemp
        exfalso
        rw [build_context, if_neg (by simp), List.map_cons] at hemp
        exact joinNL_ne_empty _ _
          (append_ne_empty_left _ _ (append_ne_empty_left _ _
            (append_ne_empty_left _ _ (append_ne_empty_left _ _
              (append_ne_empty_left _ _ (append_ne_empty_left _ _
                (by decide))))))) hemp
      · intro hc
        cases hc

/-- Witness for the context-emptiness theorem at the default 1500-char
budget on a hit with no content. -/
theorem build_context_empty_iff_witness :
    0 < 1500 ∧
    (build_context [{ score := 3 }] 1500 = "" ↔
      ([{ score := 3 }] : List Hit) = []) :=
  ⟨by decide, build_context_empty_iff [{ score := 3 }] 1500 (by decide)⟩

/-- C10: `generate_answer` itself guards against blank context — it
returns the sentinel without invoking the model (the result is the same
for any two models, and the invocation flag is false). -/
theorem generate_answer_blank_guard (llm1 llm2 : String → String → String)
    (question context : String) (h : pyStrip context = "") :
    generate_answer llm1 question context = (sentinel, false) ∧
    generate_answer llm1 question context =
      generate_answer llm2 question context := by
  rw [generate_answer, if_pos h, generate_answer, if_pos h]
  exact ⟨rfl, rfl⟩

/-- Witness for the generator guard on a whitespace-only context. -/
theorem generate_answer_blank_guard_witness :
    pyStrip " \t " = "" ∧
    (generate_answer (fun _ _ => "model-a") "q" " \t " =
        (sentinel, false) ∧
      generate_answer (fun _ _ => "model-a") "q" " \t " =
        generate_answer (fun _ _ => "model-b") "q" " \t ") :=
  ⟨by decide,
    generate_answer_blank_guard (fun _ _ => "model-a")
      (fun _ _ => "model-b") "q" " \t " (by decide)⟩

end DocRag

namespace DocRag

lemma dedupKeepFirst_cons (x : String) (xs : List String) :
    dedupKeepFirst (x :: xs) =
      x :: dedupKeepFirst (xs.filter (fun y => decide (y ≠ x))) := by
  rw [dedupKeepFirst]

lemma filter_seen_cons (c : String) (seen : List String)
    (L : List String) :
    L.filter (fun k => decide (k ≠ "" ∧ k ∉ c :: seen)) =
      (L.filter (fun k => decide (k ≠ "" ∧ k ∉ seen))).filter
        (fun y => decide (y ≠ c)) := by
  rw [List.filter_filter]
  apply List.filter_congr
  intro x _
  by_cases h1 : x = "" <;> by_cases h2 : x = c <;>
    by_cases h3 : x ∈ seen <;> simp [h1, h2, h3]

lemma normalizeGo_eq (l : List String) : ∀ seen : List String,
    normalizeGo seen l =
      dedupKeepFirst ((l.map canonEntity).filter
        (fun k => decide (k ≠ "" ∧ k ∉ seen))) := by
  induction l with
  | nil => intro seen; simp [normalizeGo, dedupKeepFirst]
  | cons name rest ih =>
      intro seen
      rw [List.map_cons, List.filter_cons]
      by_cases hk : canonEntity name ≠ "" ∧ canonEntity name ∉ seen
      · rw [if_pos (by simpa using hk), dedupKeepFirst_cons,
          ← filter_seen_cons, ← ih (canonEntity name :: seen)]
        simp only [normalizeGo]
        rw [if_pos hk]
      · rw [if_neg (by simpa using hk)]
        rw [← ih seen]
        simp only [normalizeGo]
        rw [if_neg hk]

lemma mem_dedupKeepFirst_bounded : ∀ (n : Nat) (l : List String),
    l.length ≤ n → ∀ y ∈ dedupKeepFirst l, y ∈ l := by
  intro n
  induction n with
  | zero =>
      intro l hl y hy
      cases l with
      | nil => rw [dedupKeepFirst] at hy; cases hy
      | cons x xs => simp at hl
  | succ n ih =>
      intro l hl y hy
      cases l with
      | nil => rw [dedupKeepFirst] at hy; cases hy
      | cons x xs =>
          rw [dedupKeepFirst_cons] at hy
          rcases List.mem_cons.mp hy with h | h
          · exact h ▸ List.mem_cons_self x xs
          · have hlen : (xs.filter (fun y => decide (y ≠ x))).length ≤ n := by
              have := List.length_filter_le (fun y => decide (y ≠ x)) xs
              simp at hl
              omega
            have := ih _ hlen y h
            exact List.mem_cons_of_mem x (List.mem_of_mem_filter this)

lemma mem_dedupKeepFirst (l : List String) (y : String)
    (hy : y ∈ dedupKeepFirst l) : y ∈ l :=
  mem_dedupKeepFirst_bounded l.length l (Nat.le_refl _) y hy

lemma nodup_dedupKeepFirst_bounded : ∀ (n : Nat) (l : List String),
    l.length ≤ n → (dedupKeepFirst l).Nodup := by
  intro n
  induction n with
  | zero =>
      intro l hl
      cases l with
      | nil => rw [dedupKeepFirst]; exact List.nodup_nil
      | cons x xs => simp at hl
  | succ n ih =>
      intro l hl
      cases l with
      | nil => rw [dedupKeepFirst]; exact List.nodup_nil
      | cons x xs =>
          rw [dedupKeepFirst_cons]
          have hlen : (xs.filter (fun y => decide (y ≠ x))).length ≤ n := by
            have := List.length_filter_le (fun y => decide (y ≠ x)) xs
            simp at hl
            omega
          refine List.Nodup.cons ?_ (ih _ hlen)
          intro hx
          have hmem := mem_dedupKeepFirst _ _ hx
          have := List.of_mem_filter hmem
          simp at this

lemma nodup_dedupKeepFirst (l : List String) :
    (dedupKeepFirst l).Nodup :=
  nodup_dedupKeepFirst_bounded l.length l (Nat.le_refl _)

lemma normalizeGo_mem (l : List String) : ∀ (seen : List String)
    (x : String), x ∈ normalizeGo seen l →
    x ≠ "" ∧ ∃ name ∈ l, x = canonEntity name := by
  induction l with
  | nil => intro seen x hx; cases hx
  | cons name rest ih =>
      intro seen x hx
      simp only [normalizeGo] at hx
      by_cases hk : canonEntity name ≠ "" ∧ canonEntity name ∉ seen
      · rw [if_pos hk] at hx
        rcases List.mem_cons.mp hx with h | h
        · exact ⟨h ▸ hk.1, name, List.mem_cons_self name rest, h⟩
        · obtain ⟨hne, nm, hnm, hcanon⟩ := ih (canonEntity name :: seen) x h
          exact ⟨hne, nm, List.mem_cons_of_mem name hnm, hcanon⟩
      · rw [if_neg hk] at hx
        obtain ⟨hne, nm, hnm, hcanon⟩ := ih seen x hx
        exact ⟨hne, nm, List.mem_cons_of_mem name hnm, hcanon⟩

/-- C8: `normalize_entities` equals first-seen de-duplication of the
trimmed, lower-cased raw names with empties dropped; its output has no
duplicates; and every output element is the non-empty normalized form of
some raw input name. -/
theorem normalize_entities_spec (raw : List String) :
    normalize_entities raw =
      dedupKeepFirst ((raw.map canonEntity).filter
        (fun k => decide (k ≠ ""))) ∧
    (normalize_entities raw).Nodup ∧
    (∀ x ∈ normalize_entities raw,
      x ≠ "" ∧ ∃ name ∈ raw, x = canonEntity name) := by
  have h1 : normalize_entities raw =
      dedupKeepFirst ((raw.map canonEntity).filter
        (fun k => decide (k ≠ ""))) := by
    rw [normalize_entities, normalizeGo_eq raw []]
    congr 1
    apply List.filter_congr
    intro x _
    simp
  refine ⟨h1, ?_, fun x hx => normalizeGo_mem raw [] x hx⟩
  rw [h1]
  exact nodup_dedupKeepFirst _

end DocRag

namespace DocRag

/-- Rewrite the content field of every hit of a raw response according to
`g`, leaving scores, filepaths and all other fields untouched. -/
def rewriteContent (g : Hit → Option String) (r : RawHits) : RawHits :=
  { total := r.total,
    hits := r.hits.map (fun h => { h with content := g h }) }

lemma roundRobin_map {α β : Type _} (f : α → β) :
    ∀ (n : Nat) (a b : List α), a.length + b.length ≤ n →
      (roundRobin a b).map f = roundRobin (a.map f) (b.map f) := by
  intro n
  induction n with
  | zero =>
      intro a b h
      have ha : a = [] := by cases a <;> simp_all
      have hb : b = [] := by cases b <;> simp_all
      subst ha; subst hb
      simp [roundRobin_nil]
  | succ n ih =>
      intro a b h
      cases a with
      | nil => simp [roundRobin_nil]
      | cons x rest =>
          rw [roundRobin_cons, List.map_cons, List.map_cons,
            roundRobin_cons, ih b rest (by simp at h ⊢; omega)]

lemma combineGo_map {α β : Type _} (f : α → β) (n : Nat) (a b : List α) :
    (combineGo a b n).map f = combineGo (a.map f) (b.map f) n := by
  rw [combineGo_eq_take, combineGo_eq_take, List.map_take,
    roundRobin_map f (a.length + b.length) a b (Nat.le_refl _)]

lemma search_one_rewrite_error (g : Hit → Option String)
    (label idx : String) (t : Except String RawHits) :
    (search_one label idx (t.map (rewriteContent g))).error =
      (search_one label idx t).error := by
  cases t <;> rfl

lemma search_one_rewrite_total (g : Hit → Option String)
    (label idx : String) (t : Except String RawHits) :
    (search_one label idx (t.map (rewriteContent g))).total =
      (search_one label idx t).total := by
  cases t <;> rfl

lemma search_one_rewrite_hits (g : Hit → Option String)
    (label idx : String) (t : Except String RawHits) :
    (search_one label idx (t.map (rewriteContent g))).hits =
      (search_one label idx t).hits.map
        (fun h => { h with content := g h }) := by
  cases t <;> rfl

lemma map_fp_annot_filter (alpha : Rat) (s i : String) (topScore : Rat)
    (l : List Hit) (g : Hit → Option String) :
    ((((l.map (fun h => { h with content := g h })).filter
        (fun h => decide (alpha * topScore ≤ h.score))).map
        (fun h => { h with store_label := some s,
                           index_used := some i })).map
      (fun h => h.filepath)) =
      (((l.filter (fun h => decide (alpha * topScore ≤ h.score))).map
        (fun h => { h with store_label := some s,
                           index_used := some i })).map
      (fun h => h.filepath)) := by
  induction l with
  | nil => rfl
  | cons x xs ih =>
      by_cases hx : alpha * topScore ≤ x.score <;>
        simp [List.filter_cons, hx, ih]

lemma rank_hits_content_filepaths (alpha : Rat) (o : SearchOutcome)
    (g : Hit → Option String) :
    (rank_hits alpha { o with
        hits := o.hits.map (fun h => { h with content := g h }) }).map
      (fun h => h.filepath) =
      (rank_hits alpha o).map (fun h => h.filepath) := by
  cases ho : o.hits with
  | nil => simp [rank_hits, ho]
  | cons top rest =>
      simp only [rank_hits, ho, List.map_cons]
      have hgen := map_fp_annot_filter alpha o.store_label o.index_used
        top.score (top :: rest) g
      simpa using hgen

end DocRag

namespace DocRag

lemma kept_filepaths_rewrite (alpha : Rat) (g : Hit → Option String)
    (label idx : String) (t : Except String RawHits) :
    (rank_hits alpha (search_one label idx
        (t.map (rewriteContent g)))).map (fun h => h.filepath) =
      (rank_hits alpha (search_one label idx t)).map
        (fun h => h.filepath) := by
  have h1 : search_one label idx (t.map (rewriteContent g)) =
      { search_one label idx t with
        hits := (search_one label idx t).hits.map
          (fun h => { h with content := g h }) } := by
    cases t <;> rfl
  rw [h1]
  exact rank_hits_content_filepaths alpha (search_one label idx t) g

lemma combined_filepaths_rewrite (alpha : Rat) (li hi : String)
    (g : Hit → Option String) (t_long t_hot : Except String RawHits) :
    ((combine_hits
        (rank_hits alpha (search_one "LONG" li
          (t_long.map (rewriteContent g))))
        (rank_hits alpha (search_one "HOT" hi
          (t_hot.map (rewriteContent g)))) 10).map
      (fun h => h.filepath)) =
      ((combine_hits (rank_hits alpha (search_one "LONG" li t_long))
        (rank_hits alpha (search_one "HOT" hi t_hot)) 10).map
        (fun h => h.filepath)) := by
  rw [combine_hits, combine_hits, combineGo_map, combineGo_map,
    kept_filepaths_rewrite, kept_filepaths_rewrite]

lemma search_one_rewrite_index (g : Hit → Option String)
    (label idx : String) (t : Except String RawHits) :
    (search_one label idx (t.map (rewriteContent g))).index_used =
      (search_one label idx t).index_used := by
  cases t <;> rfl

lemma ask_audit_rewrite (env : AskEnv) (question : String)
    (entities : List String) (g : Hit → Option String)
    (t_long t_hot : Except String RawHits) :
    ask_audit env question entities (t_long.map (rewriteContent g))
      (t_hot.map (rewriteContent g)) =
      ask_audit env question entities t_long t_hot := by
  simp only [ask_audit, AuditRecord.mk.injEq, StoreAudit.mk.injEq]
  refine ⟨trivial, trivial, trivial, trivial, trivial, trivial,
    ⟨search_one_rewrite_index g "LONG" env.long_index t_long,
      search_one_rewrite_total g "LONG" env.long_index t_long,
      search_one_rewrite_error g "LONG" env.long_index t_long,
      kept_filepaths_rewrite env.alpha g "LONG" env.long_index t_long⟩,
    ⟨search_one_rewrite_index g "HOT" env.hot_index t_hot,
      search_one_rewrite_total g "HOT" env.hot_index t_hot,
      search_one_rewrite_error g "HOT" env.hot_index t_hot,
      kept_filepaths_rewrite env.alpha g "HOT" env.hot_index t_hot⟩,
    combined_filepaths_rewrite env.alpha env.long_index env.hot_index g
      t_long t_hot⟩

/-- C9: the audit payload carries only the timestamp, question, entities,
alpha, size, preference token, per-store index / total / error /
surviving filepaths and the combined filepaths (the `AuditRecord`
fields), and its value is invariant under an arbitrary rewrite `g` of the
retrieved documents' content fields — so full document content never
influences (nor appears in) the audit record. -/
theorem audit_record_content_free (llm : String → String → String)
    (env : AskEnv) (question : String) (raw_entities : List String)
    (g : Hit → Option String) (t_long t_hot : Except String RawHits) :
    (ask_core llm env question raw_entities
        (t_long.map (rewriteContent g)) (t_hot.map (rewriteContent g))
        true).audit =
      (ask_core llm env question raw_entities t_long t_hot true).audit ∧
    (ask_core llm env question raw_entities t_long t_hot true).audit =
      some (ask_audit env question (normalize_entities raw_entities)
        t_long t_hot) := by
  have haud : ∀ t1 t2 : Except String RawHits,
      (ask_core llm env question raw_entities t1 t2 true).audit =
        some (ask_audit env question (normalize_entities raw_entities)
          t1 t2) := by
    intro t1 t2
    rw [ask_core_eq_ite]
    split <;> rfl
  constructor
  · rw [haud, haud, ask_audit_rewrite]
  · exact haud t_long t_hot

end DocRag

namespace DocRag

/-- Witness instantiating the combiner theorem on concrete lists. -/
theorem combine_hits_round_robin_witness :
    combine_hits [1, 2, 3] [10, 20] 4 =
      (roundRobin [1, 2, 3] [10, 20]).take 4 ∧
    (combine_hits [1, 2, 3] [10, 20] 4).length =
      min 4 ([1, 2, 3].length + [10, 20].length) ∧
    combine_hits ([] : List Nat) [] 4 = [] ∧
    (∃ k, (combine_hits (["a"].map Sum.inl)
        ([true].map Sum.inr) 4).filterMap fromA = ["a"].take k) ∧
    (∃ k, (combine_hits (["a"].map Sum.inl)
        ([true].map Sum.inr) 4).filterMap fromB = [true].take k) :=
  combine_hits_round_robin [1, 2, 3] [10, 20] 4 ["a"] [true]

/-- Witness instantiating the failure-isolation theorem on a concrete
failing transport, in both directions, with a one-hit survivor. -/
theorem store_failure_isolated_witness :
    (∀ label idx : String,
      (search_one label idx (.error "boom")).hits = [] ∧
      (search_one label idx (.error "boom")).error =
        some ("TransportError: " ++ "boom")) ∧
    (ask_combined (⟨1/2, 8, "governance-audit-v1", "bbc", "bbc", "ts"⟩ :
        AskEnv).alpha "bbc" "bbc" (.error "boom") (.ok ⟨1, [hitA]⟩)
      = (rank_hits (⟨1/2, 8, "governance-audit-v1", "bbc", "bbc", "ts"⟩ :
          AskEnv).alpha
          (search_one "HOT" "bbc" (.ok ⟨1, [hitA]⟩))).take 10 ∧
      build_context
          (ask_combined (⟨1/2, 8, "governance-audit-v1", "bbc", "bbc",
            "ts"⟩ : AskEnv).alpha "bbc" "bbc" (.error "boom")
            (.ok ⟨1, [hitA]⟩)) 1500 =
        build_context
          ((rank_hits (⟨1/2, 8, "governance-audit-v1", "bbc", "bbc",
            "ts"⟩ : AskEnv).alpha
            (search_one "HOT" "bbc" (.ok ⟨1, [hitA]⟩))).take 10) 1500) ∧
    (ask_combined (⟨1/2, 8, "governance-audit-v1", "bbc", "bbc", "ts"⟩ :
        AskEnv).alpha "bbc" "bbc" (.ok ⟨1, [hitA]⟩) (.error "boom")
      = (rank_hits (⟨1/2, 8, "governance-audit-v1", "bbc", "bbc", "ts"⟩ :
          AskEnv).alpha
          (search_one "LONG" "bbc" (.ok ⟨1, [hitA]⟩))).take 10 ∧
      build_context
          (ask_combined (⟨1/2, 8, "governance-audit-v1", "bbc", "bbc",
            "ts"⟩ : AskEnv).alpha "bbc" "bbc" (.ok ⟨1, [hitA]⟩)
            (.error "boom")) 1500 =
        build_context
          ((rank_hits (⟨1/2, 8, "governance-audit-v1", "bbc", "bbc",
            "ts"⟩ : AskEnv).alpha
            (search_one "LONG" "bbc" (.ok ⟨1, [hitA]⟩))).take 10)
          1500) :=
  store_failure_isolated
    ⟨1/2, 8, "governance-audit-v1", "bbc", "bbc", "ts"⟩ "boom"
    (.ok ⟨1, [hitA]⟩) (.ok ⟨1, [hitA]⟩)

/-- Witness instantiating the entity-normalization theorem on a concrete
raw list. -/
theorem normalize_entities_spec_witness :
    normalize_entities ["  Ernie Wise ", "ernie wise", ""] =
      dedupKeepFirst
        ((["  Ernie Wise ", "ernie wise", ""].map canonEntity).filter
          (fun k => decide (k ≠ ""))) ∧
    (normalize_entities ["  Ernie Wise ", "ernie wise", ""]).Nodup ∧
    (∀ x ∈ normalize_entities ["  Ernie Wise ", "ernie wise", ""],
      x ≠ "" ∧ ∃ name ∈ ["  Ernie Wise ", "ernie wise", ""],
        x = canonEntity name) :=
  normalize_entities_spec ["  Ernie Wise ", "ernie wise", ""]

/-- Witness instantiating the audit-invariance theorem at concrete
transports and a concrete content rewrite. -/
theorem audit_record_content_free_witness :
    (ask_core (fun _ _ => "reply")
        ⟨1/2, 8, "governance-audit-v1", "bbc", "bbc", "ts"⟩ "q" []
        ((Except.ok ⟨0, []⟩ : Except String RawHits).map
          (rewriteContent (fun _ => none)))
        ((Except.ok ⟨0, []⟩ : Except String RawHits).map
          (rewriteContent (fun _ => none))) true).audit =
      (ask_core (fun _ _ => "reply")
        ⟨1/2, 8, "governance-audit-v1", "bbc", "bbc", "ts"⟩ "q" []
        (.ok ⟨0, []⟩) (.ok ⟨0, []⟩) true).audit ∧
    (ask_core (fun _ _ => "reply")
        ⟨1/2, 8, "governance-audit-v1", "bbc", "bbc", "ts"⟩ "q" []
        (.ok ⟨0, []⟩) (.ok ⟨0, []⟩) true).audit =
      some (ask_audit ⟨1/2, 8, "governance-audit-v1", "bbc", "bbc", "ts"⟩
        "q" (normalize_entities []) (.ok ⟨0, []⟩) (.ok ⟨0, []⟩)) :=
  audit_record_content_free (fun _ _ => "reply")
    ⟨1/2, 8, "governance-audit-v1", "bbc", "bbc", "ts"⟩ "q" []
    (fun _ => none) (.ok ⟨0, []⟩) (.ok ⟨0, []⟩)

end DocRag
